import Mathlib

/-!
Verification of the terminal-bench green-agent repository.

The scoring/aggregation module `src/green_agent/green_agent.py` is imported
by `main.py` and by `tests/test_green_agent_scoring.py` but is absent from
the repository sources; its functions (`computeTaskScore`,
`computeWeightedScore`, `buildReport`) are modelled from the spec below.
The remaining definitions are shallow embeddings of code that is present:
`src/green_agent/agent.py` (`parse_task_config`, `format_results_message`,
`execute`), `src/config/settings.py` (`Settings.get`) and
`a2a_white_agent.py` (`_check_for_errors`, `_send_to_agent_async`).
-/

/-- Outcome of one task attempt, from spec §3 and the fields used by
`format_results_message` in `src/green_agent/agent.py`.  `parser_results`
maps test-case names to status strings; `failure_mode` is `some v` when the
trial carries a failure-mode enum member with string value `v`. -/
structure TrialResult where
  task_id : String
  is_resolved : Bool
  parser_results : Option (List (String × String))
  total_input_tokens : Option Nat
  total_output_tokens : Option Nat
  failure_mode : Option String
deriving DecidableEq

/-- An immutable collection of `TrialResult` for one run, plus a run id
(spec §3, mirroring `BenchmarkResults` as used by the agent code). -/
structure BenchmarkResults where
  id : String
  results : List TrialResult
deriving DecidableEq

/-- Number of parser_results entries whose status string is exactly "pass"
(spec §3/§4.1: `count(status == pass)`; any other status does not count). -/
def passCount (entries : List (String × String)) : Nat :=
  entries.countP (fun e => e.2 == "pass")

/-- Modelled from the spec: `test_pass_rate` of the missing scoring module
`src/green_agent/green_agent.py` — the fraction of parser_results entries
with status "pass" when parser_results is present and non-empty, else 0
(spec §4.1 steps 1–2). -/
def test_pass_rate (t : TrialResult) : ℚ :=
  match t.parser_results with
  | none => 0
  | some entries =>
      if entries.isEmpty then 0
      else (passCount entries : ℚ) / (entries.length : ℚ)

/-- Modelled from the spec: `computeTaskScore` of the missing scoring module
`src/green_agent/green_agent.py` — `score = 0.5 * test_pass_rate +
0.5 * (1.0 if is_resolved else 0.0)` (spec §4.1 steps 3–4). -/
def computeTaskScore (t : TrialResult) : ℚ :=
  (1 / 2) * test_pass_rate t + (1 / 2) * (if t.is_resolved then 1 else 0)

/-- Modelled from the spec: `computeWeightedScore` of the missing scoring
module `src/green_agent/green_agent.py` — `Σ(score_i * weight_i) /
Σ(weight_i)`, defined as 0 when the denominator is 0 (spec §4.2). -/
def computeWeightedScore (tasks : List (ℚ × ℤ)) : ℚ :=
  if (tasks.map Prod.snd).sum = 0 then 0
  else (tasks.map (fun p => p.1 * (p.2 : ℚ))).sum
    / (((tasks.map Prod.snd).sum : ℤ) : ℚ)

/-- Aggregate report summary (spec §4.3). -/
structure ReportSummary where
  n_resolved : Nat
  n_unresolved : Nat
  accuracy : ℚ
  task_scores : List (String × ℚ)
deriving DecidableEq

/-- Modelled from the spec: `buildReport` of the missing scoring module
`src/green_agent/green_agent.py` — counts resolved/unresolved trials,
`accuracy = n_resolved / total` guarded at `total = 0`, and the per-task
score list (spec §4.3). -/
def buildReport (results : BenchmarkResults) : ReportSummary :=
  let rs := results.results
  let nRes := rs.countP (fun t => t.is_resolved)
  let nUnres := rs.countP (fun t => !t.is_resolved)
  { n_resolved := nRes
    n_unresolved := nUnres
    accuracy := if rs.length = 0 then 0 else (nRes : ℚ) / (rs.length : ℚ)
    task_scores := rs.map (fun t => (t.task_id, computeTaskScore t)) }

/-!
Per-task section of `format_results_message` (`src/green_agent/agent.py`,
lines 164–178).  Each `message +=` in the Python loop appends exactly one
newline-terminated line, so the section is embedded as the list of lines
appended, in order.
-/

/-- Python truthiness of an `Optional[int]`: `None` and `0` are falsy. -/
def optNatTruthy : Option Nat → Bool
  | none => false
  | some n => n != 0

/-- The guard `result.total_input_tokens or result.total_output_tokens` of
`format_results_message`. -/
def tokensShown (r : TrialResult) : Bool :=
  optNatTruthy r.total_input_tokens || optNatTruthy r.total_output_tokens

/-- The line `{status} - {task_id}` of `format_results_message`. -/
def statusLine (r : TrialResult) : String :=
  (if r.is_resolved then "✓ PASS" else "✗ FAIL") ++ " - " ++ r.task_id

/-- The line `      Failure Mode: {failure_mode.value}`. -/
def failureLine (r : TrialResult) : String :=
  "      Failure Mode: " ++ r.failure_mode.getD ""

/-- The line `      Tokens: {in or 0} in, {out or 0} out`. -/
def tokenLine (r : TrialResult) : String :=
  "      Tokens: " ++ toString (r.total_input_tokens.getD 0) ++ " in, "
    ++ toString (r.total_output_tokens.getD 0) ++ " out"

/-- One iteration of the `for result in results.results` loop of
`format_results_message`: the status line is always appended; the failure
line when `not result.is_resolved and result.failure_mode`; the token line
when `result.total_input_tokens or result.total_output_tokens`. -/
def appendTrial (acc : List String) (r : TrialResult) : List String :=
  let acc1 := acc ++ [statusLine r]
  let acc2 :=
    if !r.is_resolved && r.failure_mode.isSome then acc1 ++ [failureLine r]
    else acc1
  if tokensShown r then acc2 ++ [tokenLine r] else acc2

/-- The per-task lines of `format_results_message`, accumulated exactly as
the Python loop accumulates `message`. -/
def taskResultLines (results : BenchmarkResults) : List String :=
  results.results.foldl appendTrial []

/-- The lines one trial contributes, written per the spec sentence for the
report: a pass/fail marker line, a failure-mode line, a token-count line
(used to state what the loop produces for each trial). -/
def specEntryLines (r : TrialResult) : List String :=
  [statusLine r]
    ++ (if !r.is_resolved && r.failure_mode.isSome then [failureLine r] else [])
    ++ (if tokensShown r then [tokenLine r] else [])

/-!
Layered configuration lookup: `Settings.get` of `src/config/settings.py`
(lines 82–110).  Python objects reachable from a parsed TOML file and the
caller-supplied default are embedded as `PyObj`; the process environment as
a function `String → Option String`.
-/

/-- A Python value as handled by `Settings.get`: TOML scalars, nested
tables, and `None`. -/
inductive PyObj where
  | pstr (s : String)
  | pint (n : ℤ)
  | pbool (b : Bool)
  | pdict (kvs : List (String × PyObj))
  | pnone

/-- `dict.get`: first binding of the key, if any (TOML tables have unique
keys, so first-match lookup coincides with Python dict lookup). -/
def lookupA : List (String × PyObj) → String → Option PyObj
  | [], _ => none
  | (k', v) :: rest, k => if k' = k then some v else lookupA rest k

/-- The environment-variable name used by `Settings.get`:
`key.upper().replace(".", "_")` (uppercasing leaves `.` alone, so the two
steps are one character map). -/
def envKey (key : String) : String :=
  String.mk (key.data.map (fun c => if c = '.' then '_' else c.toUpper))

/-- Split a character list on a separator character, Python
`str.split(sep)` style: `"".split(".") == [""]`. -/
def splitCharsOn (sep : Char) : List Char → List (List Char)
  | [] => [[]]
  | c :: rest =>
      let r := splitCharsOn sep rest
      if c = sep then [] :: r
      else match r with
        | [] => [[c]]
        | g :: gs => (c :: g) :: gs

/-- `key.split(".")` of `Settings.get`. -/
def splitKey (key : String) : List String :=
  (splitCharsOn '.' key.data).map String.mk

/-- The `for k in keys` loop of `Settings.get`: descend into nested dicts,
returning `default` as soon as the current value is not a dict, the key is
absent, or the value found is `None`; after the loop, return the value
(the final `value if value is not None else default` guard included). -/
def tomlWalk (default : PyObj) : List String → PyObj → PyObj
  | [], v => match v with
    | .pnone => default
    | v => v
  | k :: rest, v => match v with
    | .pdict kvs => match lookupA kvs k with
      | none => default
      | some .pnone => default
      | some v2 => tomlWalk default rest v2
    | _ => default

/-- `Settings.get(key, default)`: environment variable first (returned as a
Python string), then the TOML walk over `key.split(".")`. -/
def settingsGet (env : String → Option String) (config : List (String × PyObj))
    (key : String) (default : PyObj) : PyObj :=
  match env (envKey key) with
  | some s => .pstr s
  | none => tomlWalk default (splitKey key) (.pdict config)

/-- A lookup in the nested TOML tables that reports presence: `some v` when
every key on the path hits a table entry and the final value is not `None`
(what the spec sentence calls "the value from the TOML config file …
if present"). -/
def specLookup : List String → PyObj → Option PyObj
  | [], v => match v with
    | .pnone => none
    | v => some v
  | k :: rest, v => match v with
    | .pdict kvs => match lookupA kvs k with
      | none => none
      | some v2 => specLookup rest v2
    | _ => none

/-!
`parse_task_config` (`src/green_agent/agent.py`, lines 42–57).  The regex
`re.search(r"<task_config>(.*?)</task_config>", s, re.DOTALL)` is embedded
directly: scan start positions left to right; at the first position where
the literal open tag matches and a close tag occurs somewhere after it, the
(non-greedy) group is everything up to the first close tag.  `json.loads`
is an external library call and is passed in as a function
`jp : String → Except Unit α`; `Except.error` models `json.JSONDecodeError`.
-/

/-- The characters of the literal `<task_config>`. -/
def openTag : List Char := "<task_config>".data

/-- The characters of the literal `</task_config>`. -/
def closeTag : List Char := "</task_config>".data

/-- Everything strictly before the first occurrence of `closeTag`, if
`closeTag` occurs at all (the non-greedy `(.*?)` group). -/
def takeUntilClose : List Char → Option (List Char)
  | [] => none
  | c :: rest =>
      if closeTag.isPrefixOf (c :: rest) then some []
      else (takeUntilClose rest).map (fun l => c :: l)

/-- Leftmost match of `<task_config>(.*?)</task_config>`: at each start
position, if the open tag matches here and a close tag follows, the match
group; otherwise move one character right (as `re.search` does). -/
def extractAux : List Char → Option (List Char)
  | [] => none
  | c :: rest =>
      if openTag.isPrefixOf (c :: rest) then
        match takeUntilClose (List.drop openTag.length (c :: rest)) with
        | some content => some content
        | none => extractAux rest
      else extractAux rest

/-- `match.group(1)` of the regex search over a string, if it matched. -/
def extractTag (s : String) : Option String :=
  (extractAux s.data).map (fun l => String.mk l)

/-- Errors raised by `parse_task_config`: a propagated
`json.JSONDecodeError` from the tag content, or the explicit `ValueError`. -/
inductive ParseErr where
  | jsonDecodeError
  | valueError
deriving DecidableEq

deriving instance DecidableEq for Except

/-- Characters remaining after removing the leading whitespace run. -/
def dropLeadingWs : List Char → List Char
  | [] => []
  | c :: rest => if c.isWhitespace then dropLeadingWs rest else c :: rest

/-- Python `str.strip()`: remove leading and trailing whitespace. -/
def pyStrip (s : String) : String :=
  String.mk ((dropLeadingWs (dropLeadingWs s.data).reverse).reverse)

/-- `parse_task_config`: if the tag regex matches, parse the stripped group
as JSON (a parse failure propagates as `JSONDecodeError`); otherwise parse
the entire message, raising `ValueError` when that fails.  `pyStrip`
models `str.strip()`. -/
def parse_task_config {α : Type} (jp : String → Except Unit α)
    (user_input : String) : Except ParseErr α :=
  match extractTag user_input with
  | some content =>
      match jp (pyStrip content) with
      | .ok v => .ok v
      | .error _ => .error .jsonDecodeError
  | none =>
      match jp user_input with
      | .ok v => .ok v
      | .error _ => .error .valueError

/-!
The event flow of `TerminalBenchGreenAgentExecutor.execute`
(`src/green_agent/agent.py`, lines 180–272).  `TaskUpdater` calls are
embedded as events appended to the queue: `update_status(s, …)` emits
`status s`, `add_artifact(…, name)` emits `artifact name`, and the SDK's
`TaskUpdater.complete()` is `update_status(TaskState.completed, final=True)`,
so it emits `status completed`.  The external harness run is passed in as
`runEval`, which either returns results or raises.
-/

/-- The `a2a.types.TaskState` values `execute` emits. -/
inductive TaskStateE where
  | working
  | completed
  | failed
deriving DecidableEq

/-- One event enqueued on the `EventQueue` by `execute`. -/
inductive AgentEvent where
  | status (s : TaskStateE)
  | artifact (name : String)
deriving DecidableEq

/-- The `except Exception` branch of `execute`: `add_artifact(…, "error")`,
`update_status(TaskState.failed, …)`, then `updater.complete()`. -/
def errorPathEvents : List AgentEvent :=
  [.artifact "error", .status .failed, .status .completed]

/-- The sequence of events `execute` enqueues for one request: an initial
working status; on parse failure or harness failure the error path; on
success a second working status, the results artifact, and
`updater.complete()`. -/
def executeEvents {α : Type} (jp : String → Except Unit α)
    (runEval : α → Except String BenchmarkResults)
    (user_input : String) : List AgentEvent :=
  [.status .working] ++
    match parse_task_config jp user_input with
    | .error _ => errorPathEvents
    | .ok cfg =>
        [.status .working] ++
          match runEval cfg with
          | .error _ => errorPathEvents
          | .ok _ => [.artifact "evaluation_results", .status .completed]

/-- True on the two terminal A2A task states. -/
def isTerminal : AgentEvent → Bool
  | .status .completed => true
  | .status .failed => true
  | _ => false

/-!
`A2AWhiteAgent._check_for_errors` and `_send_to_agent_async`
(`a2a_white_agent.py`, lines 78–115).
-/

/-- The `terminal_bench.agents.failure_mode.FailureMode` values used by the
adapter. -/
inductive FailureMode where
  | noFailure
  | unknownAgentError
deriving DecidableEq

/-- Substring occurrence over character lists (the Python `in` operator on
strings). -/
def listContainsSub (pat : List Char) : List Char → Bool
  | [] => pat.isPrefixOf []
  | c :: rest => pat.isPrefixOf (c :: rest) || listContainsSub pat rest

/-- `_check_for_errors`: `UNKNOWN_AGENT_ERROR` when `"Error:" in response`,
else `NONE`. -/
def check_for_errors (response : String) : FailureMode :=
  if listContainsSub "Error:".data response.data then .unknownAgentError
  else .noFailure

/-- `_send_to_agent_async`: the communication result is either the agent's
response text or a raised exception `e`, which the adapter converts to the
string `f"Error: {str(e)}"`. -/
def sendToAgentResult : Except String String → String
  | .ok r => r
  | .error e => "Error: " ++ e

/-! ### Helper lemmas -/

theorem test_pass_rate_nonneg (t : TrialResult) : 0 ≤ test_pass_rate t := by
  unfold test_pass_rate
  cases t.parser_results with
  | none => exact le_refl 0
  | some entries =>
      by_cases h : entries.isEmpty <;> simp [h]
      positivity

theorem test_pass_rate_le_one (t : TrialResult) : test_pass_rate t ≤ 1 := by
  unfold test_pass_rate
  cases t.parser_results with
  | none => exact zero_le_one
  | some entries =>
      by_cases h : entries.isEmpty <;> simp [h]
      have hlen : 0 < (entries.length : ℚ) := by
        cases entries with
        | nil => simp [List.isEmpty] at h
        | cons e es => exact_mod_cast Nat.succ_pos es.length
      rw [div_le_one hlen]
      exact_mod_cast List.countP_le_length _

theorem countP_add_countP_not {α : Type} (p : α → Bool) (l : List α) :
    l.countP p + l.countP (fun a => !p a) = l.length := by
  induction l with
  | nil => rfl
  | cons a rest ih =>
      simp only [List.countP_cons, List.length_cons]
      cases h : p a <;> simp [h] <;> omega

theorem appendTrial_eq (acc : List String) (r : TrialResult) :
    appendTrial acc r = acc ++ specEntryLines r := by
  unfold appendTrial specEntryLines
  cases hb : (!r.is_resolved && r.failure_mode.isSome) <;>
    cases ht : tokensShown r <;> simp [hb, ht]

theorem foldl_appendTrial (rs : List TrialResult) (acc : List String) :
    rs.foldl appendTrial acc = acc ++ (rs.map specEntryLines).flatten := by
  induction rs generalizing acc with
  | nil => simp
  | cons r rest ih => simp [List.foldl_cons, appendTrial_eq, ih]

theorem tomlWalk_eq_specLookup (default : PyObj) (path : List String) :
    ∀ v : PyObj, tomlWalk default path v = (specLookup path v).getD default := by
  induction path with
  | nil => intro v; cases v <;> rfl
  | cons k rest ih =>
      intro v
      cases v with
      | pdict kvs =>
          cases h : lookupA kvs k with
          | none => simp [tomlWalk, specLookup, h]
          | some v2 =>
              cases v2 with
              | pnone =>
                  cases rest <;> simp [tomlWalk, specLookup, h]
              | pstr s => simp [tomlWalk, specLookup, h, ih]
              | pint n => simp [tomlWalk, specLookup, h, ih]
              | pbool b => simp [tomlWalk, specLookup, h, ih]
              | pdict kvs2 => simp [tomlWalk, specLookup, h, ih]
      | pstr s => rfl
      | pint n => rfl
      | pbool b => rfl
      | pnone => rfl

theorem isPrefixOf_exists (p l : List Char) :
    p.isPrefixOf l = true ↔ ∃ t, p ++ t = l := by
  rw [List.isPrefixOf_iff_prefix]
  exact Iff.rfl

theorem listContainsSub_iff (p : List Char) (l : List Char) :
    listContainsSub p l = true ↔ ∃ a b, l = a ++ p ++ b := by
  induction l with
  | nil =>
      simp only [listContainsSub, isPrefixOf_exists]
      constructor
      · rintro ⟨t, ht⟩
        rcases List.append_eq_nil.mp ht with ⟨hp, htn⟩
        exact ⟨[], [], by simp [hp]⟩
      · rintro ⟨a, b, hab⟩
        have := hab.symm
        rcases List.append_eq_nil.mp this with ⟨hap, hb⟩
        rcases List.append_eq_nil.mp hap with ⟨ha, hp⟩
        exact ⟨[], by simp [hp]⟩
  | cons c rest ih =>
      simp only [listContainsSub, Bool.or_eq_true, isPrefixOf_exists, ih]
      constructor
      · rintro (⟨t, ht⟩ | ⟨a, b, hab⟩)
        · exact ⟨[], t, by simp [ht]⟩
        · exact ⟨c :: a, b, by simp [hab]⟩
      · rintro ⟨a, b, hab⟩
        cases a with
        | nil => exact Or.inl ⟨b, by simpa using hab.symm⟩
        | cons a0 as =>
            right
            refine ⟨as, b, ?_⟩
            have : a0 :: (as ++ p ++ b) = c :: rest := by simpa using hab.symm
            exact (List.cons_eq_cons.mp this).2.symm

/-! ### Claim theorems -/

/-- Claim C1: for every `TrialResult`, `computeTaskScore` returns
`0.5 * test_pass_rate + 0.5 * (1.0 if is_resolved else 0.0)`, where
`test_pass_rate` is the fraction of parser_results entries with status
"pass" when parser_results is present and non-empty and 0.0 otherwise, and
the returned value lies in [0,1]. -/
theorem computeTaskScore_c1 (t : TrialResult) :
    computeTaskScore t
      = 1 / 2 * test_pass_rate t + 1 / 2 * (if t.is_resolved then 1 else 0)
    ∧ test_pass_rate t
      = (match t.parser_results with
         | none => 0
         | some entries =>
             if entries.isEmpty then 0
             else (passCount entries : ℚ) / (entries.length : ℚ))
    ∧ 0 ≤ computeTaskScore t ∧ computeTaskScore t ≤ 1 := by
  have h0 := test_pass_rate_nonneg t
  have h1 := test_pass_rate_le_one t
  refine ⟨rfl, rfl, ?_, ?_⟩
  · unfold computeTaskScore
    cases hr : t.is_resolved <;> simp [hr] <;> linarith
  · unfold computeTaskScore
    cases hr : t.is_resolved <;> simp [hr] <;> linarith

/-- Claim C2: `computeWeightedScore` returns `Σ(score_i * weight_i) /
Σ(weight_i)`; when the denominator is zero (including the empty list) it
returns 0 and never raises a division error (the function is total by
construction); `computeWeightedScore [(1.0,1),(0.5,3)] = 0.625`. -/
theorem computeWeightedScore_c2 (tasks : List (ℚ × ℤ)) :
    ((tasks.map Prod.snd).sum = 0 → computeWeightedScore tasks = 0)
    ∧ ((tasks.map Prod.snd).sum ≠ 0 →
        computeWeightedScore tasks * (((tasks.map Prod.snd).sum : ℤ) : ℚ)
          = (tasks.map (fun p => p.1 * (p.2 : ℚ))).sum)
    ∧ computeWeightedScore [] = 0
    ∧ computeWeightedScore [((1 : ℚ), (1 : ℤ)), (1 / 2, 3)] = 5 / 8 := by
  refine ⟨?_, ?_, rfl, by norm_num [computeWeightedScore]⟩
  · intro h
    simp [computeWeightedScore, h]
  · intro h
    have hden : (((tasks.map Prod.snd).sum : ℤ) : ℚ) ≠ 0 := by exact_mod_cast h
    simp only [computeWeightedScore]
    rw [if_neg h]
    exact div_mul_cancel₀ _ hden

/-- Witness for C2 at concrete inputs: the empty list and the two-task
list from the spec. -/
theorem computeWeightedScore_c2_witness :
    computeWeightedScore [] = 0
    ∧ computeWeightedScore [((1 : ℚ), (1 : ℤ)), (1 / 2, 3)]
        * ((([((1 : ℚ), (1 : ℤ)), (1 / 2, 3)].map Prod.snd).sum : ℤ) : ℚ)
      = ([((1 : ℚ), (1 : ℤ)), (1 / 2, 3)].map (fun p => p.1 * (p.2 : ℚ))).sum :=
  ⟨(computeWeightedScore_c2 []).1 rfl,
   (computeWeightedScore_c2 [((1 : ℚ), (1 : ℤ)), (1 / 2, 3)]).2.1 (by decide)⟩

/-- Claim C3: for every trial whose parser_results is empty or absent and
whose is_resolved is true, the task score is exactly 0.5. -/
theorem computeTaskScore_c3 (t : TrialResult)
    (hp : t.parser_results = none ∨ t.parser_results = some [])
    (hr : t.is_resolved = true) : computeTaskScore t = 1 / 2 := by
  have h0 : test_pass_rate t = 0 := by
    rcases hp with h | h <;> simp [test_pass_rate, h]
  simp [computeTaskScore, h0, hr]

/-- Witness for C3: a resolved trial with absent parser_results scores 0.5. -/
theorem computeTaskScore_c3_witness :
    computeTaskScore ⟨"hello-world", true, none, none, none, none⟩ = 1 / 2 :=
  computeTaskScore_c3 ⟨"hello-world", true, none, none, none, none⟩
    (Or.inl rfl) rfl

/-- Claim C4: `buildReport` on an empty `BenchmarkResults` yields zero-valued
aggregates (`accuracy = 0`, `n_resolved = 0`, `n_unresolved = 0`); it is a
total function (it raises no error on any input) and on every input the
resolved/unresolved counts partition the trial list. -/
theorem buildReport_c4 (rid : String) :
    (buildReport ⟨rid, []⟩).accuracy = 0
    ∧ (buildReport ⟨rid, []⟩).n_resolved = 0
    ∧ (buildReport ⟨rid, []⟩).n_unresolved = 0
    ∧ ∀ br : BenchmarkResults,
        (buildReport br).n_resolved + (buildReport br).n_unresolved
          = br.results.length := by
  refine ⟨rfl, rfl, rfl, ?_⟩
  intro br
  simpa [buildReport] using
    countP_add_countP_not (fun t : TrialResult => t.is_resolved) br.results

/-- Claim C6: a parser_results entry whose status is anything other than
"pass" is counted as failing: appending it leaves the pass_rate numerator
unchanged while the denominator still counts it; no error is raised (the
aggregation is total by construction). -/
theorem passCount_c6 (entries : List (String × String)) (nm status : String)
    (h : status ≠ "pass") :
    passCount (entries ++ [(nm, status)]) = passCount entries
    ∧ ∀ t : TrialResult,
        t.parser_results = some (entries ++ [(nm, status)]) →
        test_pass_rate t
          = (passCount entries : ℚ) / ((entries.length + 1 : ℕ) : ℚ) := by
  have hadd : passCount (entries ++ [(nm, status)]) = passCount entries := by
    simp [passCount, List.countP_append, List.countP_cons, h]
  refine ⟨hadd, ?_⟩
  intro t ht
  have hne : (entries ++ [(nm, status)]).isEmpty = false := by
    cases entries <;> simp
  simp [test_pass_rate, ht, hne, hadd]

/-- Witness for C6: the unrecognized status "flaky" is not counted as a
pass, and the resulting pass rate over two entries is `1 / 2`. -/
theorem passCount_c6_witness :
    passCount [("t1", "pass"), ("t2", "flaky")] = passCount [("t1", "pass")]
    ∧ test_pass_rate
        ⟨"w", false, some [("t1", "pass"), ("t2", "flaky")], none, none, none⟩
        = (passCount [("t1", "pass")] : ℚ) / ((2 : ℕ) : ℚ) := by
  have h := passCount_c6 [("t1", "pass")] "t2" "flaky" (by decide)
  exact ⟨h.1, h.2 ⟨"w", false,
    some [("t1", "pass"), ("t2", "flaky")], none, none, none⟩ rfl⟩

/-- Claim C5, counterexample: a trial whose token counts are both present
(with value 0) gets no token-count line in the per-task report, so the
report does not list token counts whenever they are present. -/
theorem taskResultLines_c5_counterexample :
    (⟨"t", true, none, some 0, some 0, none⟩ : TrialResult).total_input_tokens.isSome
      = true
    ∧ (⟨"t", true, none, some 0, some 0, none⟩ : TrialResult).total_output_tokens.isSome
      = true
    ∧ taskResultLines ⟨"run", [⟨"t", true, none, some 0, some 0, none⟩]⟩
      = ["✓ PASS - t"] :=
  ⟨rfl, rfl, by decide⟩

/-- Claim C5 as amended: the per-task section of the formatted report has
one entry per trial in input order; each entry is the pass/fail marker
line, then the failure-mode line when the trial is unresolved and carries a
failure mode, then the token-count line when at least one token count is
present and nonzero. -/
theorem taskResultLines_c5 (results : BenchmarkResults) :
    taskResultLines results = (results.results.map specEntryLines).flatten := by
  unfold taskResultLines
  simpa using foldl_appendTrial results.results []

/-- Claim C7: `Settings.get` resolves a key by a first-to-last precedence
chain: the environment variable (the key uppercased with dots replaced by
underscores) when set, else the value found in the TOML table along the
dot-separated key path when present, else the supplied default. -/
theorem settingsGet_c7 (env : String → Option String)
    (config : List (String × PyObj)) (key : String) (default : PyObj) :
    settingsGet env config key default
      = match env (envKey key) with
        | some s => PyObj.pstr s
        | none => (specLookup (splitKey key) (.pdict config)).getD default := by
  unfold settingsGet
  cases env (envKey key) with
  | none => simp [tomlWalk_eq_specLookup]
  | some s => rfl

/-- Claim C8, code evaluated at the failing input: on a request whose body
cannot be parsed, `execute` enqueues the error artifact, a `failed` status,
and then — because the `except` branch calls `updater.complete()` after
`update_status(TaskState.failed, …)` — a `completed` status as well, so the
run emits two terminal states instead of exactly one. -/
theorem executeEvents_c8 :
    executeEvents (α := Unit) (fun _ => .error ()) (fun _ => .ok ⟨"", []⟩) "x"
      = [.status .working, .artifact "error", .status .failed,
         .status .completed]
    ∧ (executeEvents (α := Unit) (fun _ => .error ())
        (fun _ => .ok ⟨"", []⟩) "x").filter isTerminal
      = [.status .failed, .status .completed] :=
  ⟨by decide, by decide⟩

/-- Claim C9: when the input contains a `<task_config>…</task_config>` tag
the tag's (stripped) content is parsed as JSON and a parse failure
propagates as `JSONDecodeError` without falling back to parsing the whole
message; when no tag is found the entire input is parsed, and `ValueError`
is raised exactly when that whole-string parse fails. -/
theorem parse_task_config_c9 {α : Type} (jp : String → Except Unit α)
    (user_input : String) :
    (∀ c, extractTag user_input = some c →
        parse_task_config jp user_input
          = match jp (pyStrip c) with
            | .ok v => .ok v
            | .error _ => .error .jsonDecodeError)
    ∧ (∀ c, extractTag user_input = some c → jp (pyStrip c) = .error () →
        parse_task_config jp user_input = Except.error ParseErr.jsonDecodeError)
    ∧ (extractTag user_input = none →
        ((∀ v, jp user_input = .ok v → parse_task_config jp user_input = .ok v)
          ∧ (parse_task_config jp user_input = Except.error ParseErr.valueError
              ↔ jp user_input = .error ()))) := by
  refine ⟨?_, ?_, ?_⟩
  · intro c hc
    simp [parse_task_config, hc]
  · intro c hc hj
    simp [parse_task_config, hc, hj]
  · intro hn
    constructor
    · intro v hv
      simp [parse_task_config, hn, hv]
    · cases hj : jp user_input <;> simp [parse_task_config, hn, hj]

/-- JSON parsing oracle used by the C9 witness: accepts exactly the string
`"{}"`. -/
def jpW : String → Except Unit String :=
  fun s => if s = "{}" then .ok s else .error ()

/-- Witness for C9: a tagged input parses to its stripped tag content, and
an untagged unparsable input raises `ValueError`. -/
theorem parse_task_config_c9_witness :
    parse_task_config jpW "a<task_config> {} </task_config>b" = .ok "{}"
    ∧ parse_task_config jpW "nope" = Except.error ParseErr.valueError := by
  constructor
  · have h := (parse_task_config_c9 jpW
      "a<task_config> {} </task_config>b").1 " {} " (by decide)
    exact h.trans (by decide)
  · exact ((parse_task_config_c9 jpW "nope").2.2 (by decide)).2.mpr (by decide)

/-- Claim C10: the adapter marks the failure mode `UNKNOWN_AGENT_ERROR`
exactly when the substring "Error:" occurs anywhere in the response text,
and `NONE` otherwise; every communication exception is converted into a
response beginning with "Error: ", which is therefore marked as failed. -/
theorem check_for_errors_c10 (response : String) (e : String) :
    (check_for_errors response = FailureMode.unknownAgentError
      ↔ ∃ a b, response.data = a ++ "Error:".data ++ b)
    ∧ (check_for_errors response = FailureMode.noFailure
      ↔ ¬ ∃ a b, response.data = a ++ "Error:".data ++ b)
    ∧ check_for_errors (sendToAgentResult (.error e))
      = FailureMode.unknownAgentError := by
  have hiff : check_for_errors response = FailureMode.unknownAgentError
      ↔ listContainsSub "Error:".data response.data = true := by
    unfold check_for_errors
    cases h : listContainsSub "Error:".data response.data <;> simp [h]
  have hiff2 : check_for_errors response = FailureMode.noFailure
      ↔ ¬ listContainsSub "Error:".data response.data = true := by
    unfold check_for_errors
    cases h : listContainsSub "Error:".data response.data <;> simp [h]
  refine ⟨hiff.trans (listContainsSub_iff _ _), ?_, ?_⟩
  · exact hiff2.trans (not_congr (listContainsSub_iff _ _))
  · have hdata : ("Error: " ++ e).data = "Error:".data ++ (' ' :: e.data) := by
      rw [String.data_append]
      rfl
    have hsub : listContainsSub "Error:".data
        ("Error:".data ++ (' ' :: e.data)) = true := by
      rw [listContainsSub_iff]
      exact ⟨[], ' ' :: e.data, by simp⟩
    show check_for_errors ("Error: " ++ e) = FailureMode.unknownAgentError
    unfold check_for_errors
    rw [hdata, if_pos hsub]
